import Mathlib

/-!
Verification development for the muve property-accessibility backend.

The embedding below follows the TypeScript sources:
* the background orchestrator `processPropertyBackground` and its stages
  (checklist generation, image scraping, batched image analysis, specialty
  checks, final summary) from the backend server file;
* `runSpecialtyChecks` and `parseSpecialtyFlags` from
  `backend/src/specialtyfunctions.ts`;
* `imageinGroups` from `backend/src/geminiCall.ts`.

External effects (LLM calls, page navigation, geocoding, JSON parsing of
untyped model output) are modelled as oracle fields of an `Env` structure:
each oracle returns either the value the external call produced or an
`Except.error` standing for a thrown exception.  Database writes performed
through the Supabase client never throw in the source (the client returns
error objects instead of raising), so they are modelled as an emitted trace
of `Event`s; the persisted record is obtained by folding the trace over the
initial record, whose `status` is the literal `processing` written by the
submission handler.
-/

namespace Muve

/-- Job status values stored in the `status` column: the literals
`processing`, `completed` and `error` from the source. -/
inductive Status
  | processing
  | completed
  | error
deriving DecidableEq, Repr

/-- One element of `specialty_results`: the `SpecialtyResult` interface of
`specialtyfunctions.ts`. -/
structure SpecialtyResult where
  category : String
  findings : String
deriving DecidableEq, Repr

/-- One element of `image_results`, as built by `analyzeSingleBatch`.
`image_url` is `imageUrls[index]`, which is `undefined` (here `none`) when
the parsed analysis has more entries than the submitted batch. -/
structure ImageResult where
  image_url : Option String
  trigger_found : Option (List String)
  pixel_coordinates : Option String
deriving DecidableEq, Repr

/-- One entry of the JSON array returned by the vision model for a batch:
the fields `trigger` and `pixel_coordinates` read by `analyzeSingleBatch`.
The coordinate payload is kept abstract as a string. -/
structure RawEntry where
  trigger : String
  pixel_coordinates : Option String
deriving DecidableEq, Repr

/-- The object shape `parseSummaryResponse` expects from `JSON.parse`:
a `score` (a number or `null`) and a `summary` string. -/
structure SummaryJson where
  score : Option Int
  summary : String
deriving DecidableEq, Repr

/-- The `SpecialtyFlags` interface of `specialtyfunctions.ts`. -/
structure SpecialtyFlags where
  elevation : Bool
  proximity : Bool
  pollution : Bool
  streetLighting : Bool
  sidewalk : Bool
  airQuality : Bool
  emergencyServices : Bool
deriving DecidableEq, Repr

/-- All-false flags, the initial value built in `parseSpecialtyFlags`. -/
def noFlags : SpecialtyFlags :=
  { elevation := false, proximity := false, pollution := false,
    streetLighting := false, sidewalk := false, airQuality := false,
    emergencyServices := false }

/-- Geocoded coordinates (the numeric lat/lng values are irrelevant to the
control flow, so they are carried as integers). -/
structure Coords where
  lat : Int
  lng : Int
deriving DecidableEq, Repr

/-- The seven specialty check kinds dispatched in `runSpecialtyChecks`. -/
inductive CheckKind
  | elevation
  | proximity
  | pollution
  | streetLighting
  | sidewalk
  | airQuality
  | emergencyServices
deriving DecidableEq, Repr

/-- The `category` literal each check function returns. -/
def categoryName : CheckKind → String
  | .elevation => "Elevation & Terrain"
  | .proximity => "Nearby Services & Transit"
  | .pollution => "Noise & Light Pollution"
  | .streetLighting => "Street Lighting"
  | .sidewalk => "Sidewalk & Pedestrian Infrastructure"
  | .airQuality => "Air Quality"
  | .emergencyServices => "Emergency Services Proximity"

/-- A field update sent to the `evaluations` table.  `finalUpdate` is the
single update at the end of `generateFinalSummary` (score, summary and the
literal status `completed`); `statusUpdate` is `updateSessionStatus`. -/
inductive DbWrite
  | checklist (text : String)
  | imageResults (rs : List ImageResult)
  | specialtyResults (rs : List SpecialtyResult)
  | finalUpdate (score : Option Int) (summary : String)
  | statusUpdate (st : Status) (summary : Option String)
deriving DecidableEq, Repr

/-- Observable steps of a job run: database writes plus the geocoding call
issued inside `runSpecialtyChecks`. -/
inductive Event
  | geocodeCall
  | write (w : DbWrite)
deriving DecidableEq, Repr

/-- The persisted evaluation record.  `none` stands for an absent (or
`null`) column. -/
structure EvalRecord where
  status : Status
  accessibility_checklist : Option String
  image_results : Option (List ImageResult)
  specialty_results : Option (List SpecialtyResult)
  final_score : Option Int
  final_summary : Option String
deriving DecidableEq, Repr

/-- The record created by the submission handler: `status: 'processing'`
and no derived fields. -/
def initRecord : EvalRecord :=
  { status := .processing, accessibility_checklist := none,
    image_results := none, specialty_results := none,
    final_score := none, final_summary := none }

/-- Applying one table update to the record.  `statusUpdate` only sets
`final_summary` when the summary argument is truthy, mirroring the
`if (summary)` guard in `updateSessionStatus`. -/
def applyWrite (r : EvalRecord) : DbWrite → EvalRecord
  | .checklist c => { r with accessibility_checklist := some c }
  | .imageResults rs => { r with image_results := some rs }
  | .specialtyResults rs => { r with specialty_results := some rs }
  | .finalUpdate sc sm =>
      { r with final_score := sc, final_summary := some sm,
               status := .completed }
  | .statusUpdate st sm =>
      { r with status := st,
               final_summary :=
                 match sm with
                 | some s => if s = "" then r.final_summary else some s
                 | none => r.final_summary }

/-- Applying one event to the record; the geocoding call touches nothing. -/
def applyEvent (r : EvalRecord) : Event → EvalRecord
  | .geocodeCall => r
  | .write w => applyWrite r w

/-! ### Character-level string helpers

The source manipulates JavaScript strings with `toLowerCase`, `includes`,
`split`, `trim`, `replace` and `substring`.  These are modelled over
`List Char` so that every definition is structurally recursive and
evaluates inside the kernel. -/

/-- Whether `needle` occurs as a contiguous substring, like
`String.prototype.includes`. -/
def listInfix (needle : List Char) : List Char → Bool
  | [] => needle.isEmpty
  | c :: cs => needle.isPrefixOf (c :: cs) || listInfix needle cs

/-- ASCII lowercasing of a character list (`toLowerCase`; the source only
feeds it ASCII checklist text). -/
def lowerList (l : List Char) : List Char := l.map Char.toLower

/-- Both-ends whitespace trimming, like `String.prototype.trim`. -/
def trimList (l : List Char) : List Char :=
  ((l.dropWhile Char.isWhitespace).reverse.dropWhile Char.isWhitespace).reverse

/-- `trim` on strings. -/
def strTrim (s : String) : String := String.mk (trimList s.data)

/-- Splitting on a separator character, like `split(',')`: the empty string
splits to one empty field. -/
def splitOnChar (sep : Char) : List Char → List (List Char)
  | [] => [[]]
  | c :: cs =>
      let r := splitOnChar sep cs
      if c = sep then [] :: r
      else
        match r with
        | [] => [[c]]
        | h :: t => (c :: h) :: t

/-- `split(',')` on strings. -/
def splitCommas (s : String) : List String :=
  (splitOnChar ',' s.data).map (fun l => String.mk l)

/-- Fuel-driven worker for global substring removal (the
`replace(pattern, cleared)` calls): scans left to right and removes
non-overlapping occurrences of `pat`. -/
def stripAllAux (pat : List Char) : Nat → List Char → List Char
  | 0, l => l
  | _ + 1, [] => []
  | n + 1, c :: cs =>
      if pat.isPrefixOf (c :: cs) then
        stripAllAux pat n ((c :: cs).drop pat.length)
      else c :: stripAllAux pat n cs

/-- Remove every occurrence of a nonempty pattern. -/
def stripAll (pat : List Char) (l : List Char) : List Char :=
  stripAllAux pat l.length l

/-- The code-fence opener removed first in `analyzeSingleBatch`. -/
def ticksJson : List Char := "```json".data

/-- The plain code fence removed second. -/
def threeTicks : List Char := "```".data

/-- The cleanup applied to the analysis text in `analyzeSingleBatch`:
remove all occurrences of the json fence, then of the bare fence, then
trim. -/
def cleanAnalysisText (s : String) : String :=
  String.mk (trimList (stripAll threeTicks (stripAll ticksJson s.data)))

/-- The cleanup in `parseSummaryResponse`: conditionally strip a leading
json fence, then a leading bare fence, then a trailing bare fence, then
trim (three sequential `if`s followed by `trim` in the source). -/
def cleanSummaryText (raw : String) : String :=
  let l := raw.data
  let t1 := if ticksJson.isPrefixOf l then l.drop 7 else l
  let t2 := if threeTicks.isPrefixOf t1 then t1.drop 3 else t1
  let t3 := if threeTicks.isSuffixOf t2 then t2.take (t2.length - 3) else t2
  String.mk (trimList t3)

/-- First-occurrence deduplication, the JavaScript `Set` insertion-order
semantics used to collect scraped image URLs. -/
def dedupAux (seen : List String) : List String → List String
  | [] => []
  | s :: rest =>
      if seen.contains s then dedupAux seen rest
      else s :: dedupAux (s :: seen) rest

/-- Deduplicate keeping first occurrences. -/
def dedupFirst (l : List String) : List String := dedupAux [] l

/-- JavaScript truthiness of an optional string: `undefined` and the empty
string are falsy. -/
def optTruthy : Option String → Bool
  | none => false
  | some s => !(s = "")

/-! ### External environment

Every outgoing call of a job run, as an oracle.  `Except.error ()` models a
thrown exception (or rejected promise) at that call site. -/

/-- Oracles for one job run. -/
structure Env where
  /-- `model.generateContent` in `generateAccessibilityChecklist`. -/
  checklistGen : Except Unit String
  /-- `searchUrlFromAddress` (it catches internally and returns `null`). -/
  searchResult : Option String
  /-- Navigation plus image extraction for a target URL, producing the raw
  (not yet deduplicated, uncapped) list of extracted image URLs. -/
  pageImages : String → Except Unit (List String)
  /-- Per batch index, the model response text produced inside
  `imageinGroups` (`Except.error` for any throw inside its `try`). -/
  batchGen : Nat → Except Unit String
  /-- `JSON.parse` of a cleaned analysis text into the expected array
  shape; `none` when parsing (or the subsequent field access) throws. -/
  parseAnalysis : String → Option (List RawEntry)
  /-- `geocodeAddress` via Nominatim. -/
  geocode : Except Unit Coords
  /-- Findings text of one specialty check (its inner data fetch is
  caught in the source; `Except.error` models its `generateContent`
  rejecting). -/
  checkOutcome : CheckKind → Except Unit String
  /-- `model.generateContent` in `generateFinalSummary`. -/
  summaryGen : Except Unit String
  /-- `JSON.parse` of the cleaned summary text into `SummaryJson`;
  `none` when it throws. -/
  parseSummary : String → Option SummaryJson

/-! ### parseSpecialtyFlags -/

/-- The marker of the checklist trailer line, lowercased. -/
def markerChars : List Char := "specialty_checks:".data

/-- Model of the `SPECIALTY_CHECKS:\s*(.+)` case-insensitive regex match:
find an occurrence of the marker followed (after whitespace) by at least
one character, and capture from the first non-whitespace character to the
end of that line. -/
def specialtyCapture : List Char → Option (List Char)
  | [] => none
  | c :: cs =>
      if markerChars.isPrefixOf (lowerList (c :: cs)) then
        let rest := ((c :: cs).drop markerChars.length).dropWhile Char.isWhitespace
        let line := rest.takeWhile (fun ch => ch ≠ '\n')
        if line.isEmpty then specialtyCapture cs else some line
      else specialtyCapture cs

/-- `parseSpecialtyFlags` of `specialtyfunctions.ts`: lowercase the
captured token list and set each flag by substring containment. -/
def parseSpecialtyFlags (checklist : String) : SpecialtyFlags :=
  match specialtyCapture checklist.data with
  | none => noFlags
  | some line =>
      let tokens := lowerList line
      { elevation := listInfix "elevation".data tokens,
        proximity := listInfix "proximity".data tokens,
        pollution := listInfix "pollution".data tokens,
        streetLighting :=
          listInfix "lighting".data tokens ||
          listInfix "streetlight".data tokens ||
          listInfix "vision".data tokens,
        sidewalk := listInfix "sidewalk".data tokens,
        airQuality :=
          listInfix "air".data tokens || listInfix "airquality".data tokens,
        emergencyServices := listInfix "emergency".data tokens }

/-! ### runSpecialtyChecks -/

/-- One specialty check: on success it returns the pair of its fixed
category literal and the generated findings text. -/
def checkRun (env : Env) (k : CheckKind) : Except Unit SpecialtyResult :=
  match env.checkOutcome k with
  | .ok f => .ok { category := categoryName k, findings := f }
  | .error e => .error e

/-- The task list built by the seven `if (flags.x) tasks.push(...)`
statements, in source order. -/
def requestedChecks (flags : SpecialtyFlags) : List CheckKind :=
  (if flags.elevation then [CheckKind.elevation] else []) ++
  (if flags.proximity then [CheckKind.proximity] else []) ++
  (if flags.pollution then [CheckKind.pollution] else []) ++
  (if flags.streetLighting then [CheckKind.streetLighting] else []) ++
  (if flags.sidewalk then [CheckKind.sidewalk] else []) ++
  (if flags.airQuality then [CheckKind.airQuality] else []) ++
  (if flags.emergencyServices then [CheckKind.emergencyServices] else [])

/-- `runSpecialtyChecks`: geocode once (returning `[]` if that throws),
launch all requested checks, wait for all to settle
(`Promise.allSettled`) and keep the fulfilled values in task order.
The early return on an empty task list coincides with `filterMap` over
`[]`.  The returned event list records the geocoding call. -/
def runSpecialtyChecks (env : Env) (flags : SpecialtyFlags) :
    List Event × List SpecialtyResult :=
  match env.geocode with
  | .error _ => ([Event.geocodeCall], [])
  | .ok _ =>
      ([Event.geocodeCall],
       (requestedChecks flags).filterMap (fun k => (checkRun env k).toOption))

/-! ### Image scraping (stage 2) -/

/-- Navigation plus extraction for a determined target URL: the extracted
URLs are deduplicated via a `Set` and capped with `slice(0, 30)`. -/
def navExtract (env : Env) (u : String) : Except Unit (List String) :=
  match env.pageImages u with
  | .error e => .error e
  | .ok imgs => .ok ((dedupFirst imgs).take 30)

/-- `scrapePropertyImages`: use the given URL if truthy; otherwise search
for one from the address and throw
(`Could not find property URL from address`) when the search yields
nothing; navigating with no target at all also throws. -/
def scrapePropertyImages (address url : Option String) (env : Env) :
    Except Unit (List String) :=
  if !(optTruthy url) && optTruthy address then
    match env.searchResult with
    | none => .error ()
    | some u => if u = "" then .error () else navExtract env u
  else
    match url with
    | some u => if u = "" then .error () else navExtract env u
    | none => .error ()

/-! ### Batch analysis (stages 3 and 4.2) -/

/-- `BATCH_SIZE` in `analyzeImagesInBatches`. -/
def BATCH_SIZE : Nat := 1

/-- `imageinGroups` of `geminiCall.ts`: its whole body is inside a `try`
that returns the model response text on success and the literal `"[]"`
analysis on any failure, so the call itself never throws.  (The
stringify/parse round trip between it and `analyzeSingleBatch` is the
identity on the analysis text.) -/
def imageinGroups (genResult : Except Unit String) : String :=
  match genResult with
  | .ok t => t
  | .error _ => "[]"

/-- `trigger !== 'None' ? trigger.split(',').map(trim).filter(nonempty)
: null`. -/
def mkTriggerFound (trigger : String) : Option (List String) :=
  if trigger = "None" then none
  else some (((splitCommas trigger).map strTrim).filter (fun t => 0 < t.length))

/-- `result.pixel_coordinates ? result.pixel_coordinates : null`. -/
def coordVal : Option String → Option String
  | none => none
  | some p => if p = "" then none else some p

/-- The `parsedResults.map((result, index) => ...)` construction: entry
`index` is paired with `imageUrls[index]`. -/
def buildEntries (urls : List String) : Nat → List RawEntry → List ImageResult
  | _, [] => []
  | i, r :: rs =>
      { image_url := urls[i]?,
        trigger_found := mkTriggerFound r.trigger,
        pixel_coordinates := coordVal r.pixel_coordinates } ::
        buildEntries urls (i + 1) rs

/-- `analyzeSingleBatch`: obtain the analysis text, strip code fences,
parse the JSON array (throwing, that is `Except.error`, on unparseable
text) and map entries to the stored format. -/
def analyzeSingleBatch (imageUrls : List String) (genResult : Except Unit String)
    (parseAnalysis : String → Option (List RawEntry)) :
    Except Unit (List ImageResult) :=
  let analysis := imageinGroups genResult
  match parseAnalysis (cleanAnalysisText analysis) with
  | none => .error ()
  | some raws => .ok (buildEntries imageUrls 0 raws)

/-- Batch `j`: `images.slice(j * BATCH_SIZE, j * BATCH_SIZE + BATCH_SIZE)`. -/
def batchOf (images : List String) (j : Nat) : List String :=
  (images.drop (j * BATCH_SIZE)).take BATCH_SIZE

/-- `Math.ceil(images.length / BATCH_SIZE)`. -/
def numBatches (images : List String) : Nat :=
  (images.length + BATCH_SIZE - 1) / BATCH_SIZE

/-- The loop body of `analyzeImagesInBatches` over the remaining batch
indices: a successful batch appends its results to the accumulator and
persists the accumulated list; a failing batch is caught, logged and
skipped. -/
def runBatches (env : Env) (images : List String) (acc : List ImageResult) :
    List Nat → List Event × List ImageResult
  | [] => ([], acc)
  | j :: js =>
      match analyzeSingleBatch (batchOf images j) (env.batchGen j)
          env.parseAnalysis with
      | .ok rs =>
          let rest := runBatches env images (acc ++ rs) js
          (Event.write (DbWrite.imageResults (acc ++ rs)) :: rest.1, rest.2)
      | .error _ => runBatches env images acc js

/-- `analyzeImagesInBatches`: iterate the batches in order starting from an
empty accumulator.  (The inter-batch delay only affects timing and is not
modelled.) -/
def analyzeImagesInBatches (env : Env) (images : List String) :
    List Event × List ImageResult :=
  runBatches env images [] (List.range (numBatches images))

/-- What batch `j` contributes to the accumulated results: its entries if
it succeeds, nothing if it fails. -/
def batchResult (env : Env) (images : List String) (j : Nat) :
    List ImageResult :=
  match analyzeSingleBatch (batchOf images j) (env.batchGen j)
      env.parseAnalysis with
  | .ok rs => rs
  | .error _ => []

/-- Concatenation of per-batch contributions in batch order. -/
def collectBatches (f : Nat → List ImageResult) : List Nat → List ImageResult
  | [] => []
  | j :: js => f j ++ collectBatches f js

/-! ### Scoring (stage 6) and the orchestrator -/

/-- `parseSummaryResponse`: strip fences and parse; on failure fall back
to a `null` score with the raw (unstripped) text as summary. -/
def parseSummaryResponse (raw : String)
    (parse : String → Option SummaryJson) : SummaryJson :=
  match parse (cleanSummaryText raw) with
  | some j => j
  | none => { score := none, summary := raw }

/-- The generic summary written by the orchestrator catch block. -/
def genericErrorSummary : String := "An error occurred during processing."

/-- The write performed by `updateSessionStatus(id, error, generic)`. -/
def errorEvent : Event :=
  .write (.statusUpdate .error (some genericErrorSummary))

/-- `generateFinalSummary` as observed through its effects: on a model
throw the orchestrator catch writes the error status; otherwise the parsed
(or fallback) summary is persisted together with `status: 'completed'` in
one update. -/
def finalStage (env : Env) : List Event :=
  match env.summaryGen with
  | .error _ => [errorEvent]
  | .ok raw =>
      let fs := parseSummaryResponse raw env.parseSummary
      [Event.write (DbWrite.finalUpdate fs.score fs.summary)]

/-- Step 3.5 of the orchestrator: run the specialty checks and persist
`specialty_results` in one update, but only when the parsed flags request
elevation, proximity or pollution. -/
def specialtyStage (env : Env) (checklist : String) :
    List Event × List SpecialtyResult :=
  let flags := parseSpecialtyFlags checklist
  if flags.elevation || flags.proximity || flags.pollution then
    ((runSpecialtyChecks env flags).1 ++
       [Event.write (DbWrite.specialtyResults (runSpecialtyChecks env flags).2)],
     (runSpecialtyChecks env flags).2)
  else ([], [])

/-- `processPropertyBackground`: the stage sequence with its surrounding
try/catch.  A throw in checklist generation or scraping reaches the catch
before any later stage; the batch and specialty stages contain their own
failures; a throw in the final model call reaches the catch after the
earlier writes. -/
def runJob (env : Env) (address url : Option String) : List Event :=
  match env.checklistGen with
  | .error _ => [errorEvent]
  | .ok checklist =>
      match scrapePropertyImages address url env with
      | .error _ => [Event.write (DbWrite.checklist checklist), errorEvent]
      | .ok images =>
          Event.write (DbWrite.checklist checklist) ::
            ((analyzeImagesInBatches env images).1 ++
             (specialtyStage env checklist).1 ++ finalStage env)

/-- The record a poller observes once the background task has finished:
the initial `processing` record with every write of the run applied. -/
def finalRecord (env : Env) (address url : Option String) : EvalRecord :=
  (runJob env address url).foldl applyEvent initRecord

/-! ### Event classifiers used by the claims -/

/-- The status value an event writes, if any. -/
def eventStatus : Event → Option Status
  | .geocodeCall => none
  | .write (.checklist _) => none
  | .write (.imageResults _) => none
  | .write (.specialtyResults _) => none
  | .write (.finalUpdate _ _) => some .completed
  | .write (.statusUpdate st _) => some st

/-- The sequence of status values written during a run. -/
def statusWrites (tr : List Event) : List Status := tr.filterMap eventStatus

/-- Whether an event is the geocoding call. -/
def isGeoCall : Event → Bool
  | .geocodeCall => true
  | _ => false

/-- Whether an event writes `specialty_results`. -/
def isSpecialtyWrite : Event → Bool
  | .write (.specialtyResults _) => true
  | _ => false

/-- Whether an event belongs to the batch-analysis, geo-context or scoring
stages (as opposed to checklist or error writes). -/
def isStageEvent : Event → Bool
  | .write (.imageResults _) => true
  | .write (.specialtyResults _) => true
  | .write (.finalUpdate _ _) => true
  | .geocodeCall => true
  | _ => false

/-- Whether an event writes `final_score`. -/
def eventWritesScore : Event → Bool
  | .write (.finalUpdate _ _) => true
  | _ => false

/-! ### Concrete environments used to exercise the theorems -/

/-- A checklist of the shape produced by stage 1, requesting the
elevation and proximity specialty checks. -/
def baseChecklist : String :=
  "features list\nTRIGGERS: stairs\nSPECIALTY_CHECKS: elevation, proximity"

/-- A fully successful environment: two scraped images, a parseable
analysis per batch, successful specialty checks and a parseable summary. -/
def baseEnv : Env :=
  { checklistGen := .ok baseChecklist,
    searchResult := some "https://redfin.example/home",
    pageImages := fun _ => .ok ["img1", "img2"],
    batchGen := fun _ => .ok "TRIG",
    parseAnalysis := fun s =>
      if s = "TRIG" then some [{ trigger := "None", pixel_coordinates := none }]
      else none,
    geocode := .ok { lat := 0, lng := 0 },
    checkOutcome := fun _ => .ok "finding",
    summaryGen := .ok "RAWSUMMARY",
    parseSummary := fun _ => some { score := some 90, summary := "Nice" } }

/-- No listing URL can be found for the address. -/
def env2 : Env := { baseEnv with searchResult := none }

/-- The scoring response is a fenced non-JSON text. -/
def env3 : Env :=
  { baseEnv with summaryGen := .ok "```json oops```",
                 parseSummary := fun _ => none }

/-- The first batch analyzer call throws; later batches succeed. -/
def env4 : Env :=
  { baseEnv with batchGen := fun n => if n = 0 then .error () else .ok "TRIG" }

/-- A checklist requesting five specialty check kinds. -/
def c5checklist : String :=
  "SPECIALTY_CHECKS: elevation, proximity, pollution, lighting, sidewalk"

/-- Three of the five requested checks fail; proximity and sidewalk
succeed. -/
def env5 : Env :=
  { baseEnv with
    checklistGen := .ok c5checklist,
    checkOutcome := fun k =>
      match k with
      | .proximity => .ok "Bus stops and a clinic are close"
      | .sidewalk => .ok "Curb cuts are present"
      | _ => .error () }

/-- A checklist whose trailer requests only the sidewalk check kind. -/
def sidewalkChecklist : String := "SPECIALTY_CHECKS: sidewalk"

/-- Stage 1 produced a checklist requesting only the sidewalk kind. -/
def env6 : Env := { baseEnv with checklistGen := .ok sidewalkChecklist }

/-- The parsed scoring response carries a score outside of the 0 to 100
range. -/
def env9 : Env :=
  { baseEnv with
    parseSummary := fun _ => some { score := some 250, summary := "Great fit" } }

/-- Geocoding the address fails. -/
def env10 : Env := { baseEnv with geocode := .error () }

/-- An analyzer response whose sole entry has the bare-comma trigger
value. -/
def parse8bad : String → Option (List RawEntry) := fun s =>
  if s = "TRIGBAD" then some [{ trigger := ",", pixel_coordinates := none }]
  else none

/-- The parsed analyzer entries used for the trigger-splitting theorem:
one sentinel entry and one entry with two padded trigger names. -/
def raws8 : List RawEntry :=
  [{ trigger := "None", pixel_coordinates := none },
   { trigger := " ramp steep , narrow door ", pixel_coordinates := some "x" }]

/-- An analyzer parse oracle returning `raws8`. -/
def parse8ok : String → Option (List RawEntry) := fun s =>
  if s = "TRIG" then some raws8 else none

/-- The stored entries `analyzeSingleBatch` builds from `raws8`. -/
def rs8 : List ImageResult :=
  [{ image_url := some "u1", trigger_found := none, pixel_coordinates := none },
   { image_url := some "u2",
     trigger_found := some ["ramp steep", "narrow door"],
     pixel_coordinates := some "x" }]

/-! ### Helper lemmas -/

/-- The accumulated batch results are the accumulator followed by the
per-batch contributions in batch order. -/
lemma runBatches_snd (env : Env) (images : List String) :
    ∀ (js : List Nat) (acc : List ImageResult),
      (runBatches env images acc js).2 =
        acc ++ collectBatches (batchResult env images) js := by
  intro js
  induction js with
  | nil => intro acc; simp [runBatches, collectBatches]
  | cons j js ih =>
      intro acc
      cases h : analyzeSingleBatch (batchOf images j) (env.batchGen j)
          env.parseAnalysis with
      | ok rs =>
          simp [runBatches, h, collectBatches, batchResult, ih,
            List.append_assoc]
      | error e => simp [runBatches, h, collectBatches, batchResult, ih]

/-- Every event emitted by the batch loop is an `image_results` write. -/
lemma runBatches_fst_mem (env : Env) (images : List String) :
    ∀ (js : List Nat) (acc : List ImageResult) (e : Event),
      e ∈ (runBatches env images acc js).1 →
      ∃ rs, e = Event.write (DbWrite.imageResults rs) := by
  intro js
  induction js with
  | nil => intro acc e he; simp [runBatches] at he
  | cons j js ih =>
      intro acc e he
      cases h : analyzeSingleBatch (batchOf images j) (env.batchGen j)
          env.parseAnalysis with
      | ok rs =>
          simp only [runBatches, h] at he
          rcases List.mem_cons.mp he with he | he
          · exact ⟨acc ++ rs, he⟩
          · exact ih (acc ++ rs) e he
      | error e2 =>
          simp only [runBatches, h] at he
          exact ih acc e he

/-- The batch loop emits no event matching a predicate that rejects all
`image_results` writes. -/
lemma runBatches_countP (env : Env) (images : List String) (p : Event → Bool)
    (hp : ∀ rs, p (Event.write (DbWrite.imageResults rs)) = false)
    (js : List Nat) (acc : List ImageResult) :
    List.countP p (runBatches env images acc js).1 = 0 := by
  rw [List.countP_eq_zero]
  intro e he
  obtain ⟨rs, rfl⟩ := runBatches_fst_mem env images js acc e he
  simp [hp]

/-- The batch loop writes no status value. -/
lemma statusWrites_runBatches (env : Env) (images : List String)
    (js : List Nat) (acc : List ImageResult) :
    List.filterMap eventStatus (runBatches env images acc js).1 = [] := by
  rw [List.filterMap_eq_nil_iff]
  intro e he
  obtain ⟨rs, rfl⟩ := runBatches_fst_mem env images js acc e he
  rfl

/-- Folding the batch loop events over a record only touches
`image_results`. -/
lemma runBatches_foldl (env : Env) (images : List String) :
    ∀ (js : List Nat) (acc : List ImageResult) (r : EvalRecord),
      (((runBatches env images acc js).1).foldl applyEvent r).status = r.status ∧
      (((runBatches env images acc js).1).foldl applyEvent r).specialty_results
        = r.specialty_results ∧
      (((runBatches env images acc js).1).foldl applyEvent r).final_score
        = r.final_score ∧
      (((runBatches env images acc js).1).foldl applyEvent r).final_summary
        = r.final_summary := by
  intro js
  induction js with
  | nil => intro acc r; simp [runBatches]
  | cons j js ih =>
      intro acc r
      cases h : analyzeSingleBatch (batchOf images j) (env.batchGen j)
          env.parseAnalysis with
      | ok rs =>
          simp only [runBatches, h, List.foldl_cons]
          exact ih (acc ++ rs) (applyEvent r (.write (.imageResults (acc ++ rs))))
      | error e2 =>
          simp only [runBatches, h]
          exact ih acc r

/-- The specialty runner always emits exactly the geocoding call. -/
lemma runSpecialtyChecks_fst (env : Env) (flags : SpecialtyFlags) :
    (runSpecialtyChecks env flags).1 = [Event.geocodeCall] := by
  cases h : env.geocode <;> simp [runSpecialtyChecks, h]

/-- The specialty stage emits either nothing (gate closed) or the
geocoding call followed by the single `specialty_results` write. -/
lemma specialtyStage_fst (env : Env) (c : String) :
    (specialtyStage env c).1 = [] ∨
    (specialtyStage env c).1 =
      [Event.geocodeCall,
       Event.write (DbWrite.specialtyResults
         (runSpecialtyChecks env (parseSpecialtyFlags c)).2)] := by
  by_cases h : ((parseSpecialtyFlags c).elevation ||
      (parseSpecialtyFlags c).proximity ||
      (parseSpecialtyFlags c).pollution) = true
  · right; simp [specialtyStage, h, runSpecialtyChecks_fst]
  · left; simp [specialtyStage, h]

/-- Entry counts of the mapped batch entries. -/
lemma buildEntries_length (urls : List String) :
    ∀ (raws : List RawEntry) (i0 : Nat),
      (buildEntries urls i0 raws).length = raws.length := by
  intro raws
  induction raws with
  | nil => intro i0; rfl
  | cons r rest ih => intro i0; simp [buildEntries, ih]

/-- Entry `i` of the mapped batch entries pairs `urls[i0 + i]` with the
mapped fields of raw entry `i`. -/
lemma buildEntries_getElem? (urls : List String) :
    ∀ (raws : List RawEntry) (i0 i : Nat),
      (buildEntries urls i0 raws)[i]? =
        (raws[i]?).map (fun r =>
          ({ image_url := urls[(i0 + i)]?,
             trigger_found := mkTriggerFound r.trigger,
             pixel_coordinates := coordVal r.pixel_coordinates } : ImageResult)) := by
  intro raws
  induction raws with
  | nil => intro i0 i; simp [buildEntries]
  | cons r rest ih =>
      intro i0 i
      cases i with
      | zero => simp [buildEntries]
      | succ i2 =>
          simp only [buildEntries, List.getElem?_cons_succ]
          rw [ih (i0 + 1) i2]
          have hn : i0 + 1 + i2 = i0 + (i2 + 1) := by omega
          rw [hn]

/-- Field values of the final record when stages 1 and 2 succeed and the
scoring model call returns text: the terminal update determines status,
score and summary. -/
lemma finalRecord_of_summary_ok (env : Env) (a u : Option String)
    (c : String) (imgs : List String) (raw : String)
    (h1 : env.checklistGen = .ok c)
    (h2 : scrapePropertyImages a u env = .ok imgs)
    (h3 : env.summaryGen = .ok raw) :
    (finalRecord env a u).status = .completed ∧
    (finalRecord env a u).final_score =
      (parseSummaryResponse raw env.parseSummary).score ∧
    (finalRecord env a u).final_summary =
      some (parseSummaryResponse raw env.parseSummary).summary := by
  unfold finalRecord runJob
  rw [h1, h2]
  simp only [finalStage, h3, List.foldl_cons, ← List.append_assoc,
    List.foldl_append]
  simp [applyEvent, applyWrite]

/-! ### Claims -/

/-- Claim C1: the record starts at status `processing`, and every run of
the background orchestrator writes the status field exactly once, with the
written value `completed` or `error`; in particular no run ever writes
`processing` again or moves a record from one terminal status to the
other. -/
theorem claim_status_monotone (env : Env) (a u : Option String) :
    initRecord.status = .processing ∧
    (statusWrites (runJob env a u) = [Status.completed] ∨
     statusWrites (runJob env a u) = [Status.error]) := by
  refine ⟨rfl, ?_⟩
  unfold runJob
  cases hc : env.checklistGen with
  | error e => right; rfl
  | ok c =>
      cases hs : scrapePropertyImages a u env with
      | error e => right; rfl
      | ok imgs =>
          unfold statusWrites
          simp only [List.filterMap_cons, List.filterMap_append, eventStatus,
            analyzeImagesInBatches]
          rw [statusWrites_runBatches]
          have h3 : List.filterMap eventStatus (specialtyStage env c).1 = [] := by
            rcases specialtyStage_fst env c with h | h <;> rw [h] <;> rfl
          rw [h3]
          cases hg : env.summaryGen with
          | error e => right; simp [finalStage, hg, eventStatus, errorEvent]
          | ok raw => left; simp [finalStage, hg, eventStatus]

/-- Claim C2: when checklist generation or the photo stage (listing-URL
resolution or image extraction) throws, the run writes the `error` status
with the generic summary and performs no batch-analysis, geo-context or
scoring work. -/
theorem claim_fatal_early_failure (env : Env) (a u : Option String)
    (h : env.checklistGen = .error () ∨
         scrapePropertyImages a u env = .error ()) :
    List.countP isStageEvent (runJob env a u) = 0 ∧
    (finalRecord env a u).status = .error ∧
    (finalRecord env a u).final_summary = some genericErrorSummary := by
  have hgen : (genericErrorSummary = "") = False := by
    simp [genericErrorSummary]
  rcases h with h | h
  · unfold finalRecord runJob
    rw [h]
    refine ⟨rfl, ?_, ?_⟩ <;>
      simp [errorEvent, applyEvent, applyWrite, initRecord, hgen]
  · cases hc : env.checklistGen with
    | error e =>
        unfold finalRecord runJob
        rw [hc]
        refine ⟨rfl, ?_, ?_⟩ <;>
          simp [errorEvent, applyEvent, applyWrite, initRecord, hgen]
    | ok c =>
        unfold finalRecord runJob
        rw [hc, h]
        refine ⟨?_, ?_, ?_⟩ <;>
          simp [errorEvent, applyEvent, applyWrite, initRecord, hgen,
            isStageEvent, List.countP_cons, List.countP_nil]

/-- Claim C2 witness: no URL is given and no listing URL is found for the
address, so the job errors with the generic summary before any analysis
work. -/
theorem claim_fatal_early_failure_witness :
    scrapePropertyImages (some "123 Main St") none env2 = .error () ∧
    (List.countP isStageEvent (runJob env2 (some "123 Main St") none) = 0 ∧
     (finalRecord env2 (some "123 Main St") none).status = .error ∧
     (finalRecord env2 (some "123 Main St") none).final_summary =
       some genericErrorSummary) :=
  ⟨rfl, claim_fatal_early_failure env2 (some "123 Main St") none (Or.inr rfl)⟩

/-- Claim C3: when the cleaned scoring response does not parse, the job
still completes, `final_score` stays null and `final_summary` is the raw
response text verbatim (not the fence-stripped text). -/
theorem claim_scoring_parse_fallback (env : Env) (a u : Option String)
    (c : String) (imgs : List String) (raw : String)
    (h1 : env.checklistGen = .ok c)
    (h2 : scrapePropertyImages a u env = .ok imgs)
    (h3 : env.summaryGen = .ok raw)
    (h4 : env.parseSummary (cleanSummaryText raw) = none) :
    (finalRecord env a u).status = .completed ∧
    (finalRecord env a u).final_score = none ∧
    (finalRecord env a u).final_summary = some raw := by
  have hps : parseSummaryResponse raw env.parseSummary =
      { score := none, summary := raw } := by
    simp [parseSummaryResponse, h4]
  have h := finalRecord_of_summary_ok env a u c imgs raw h1 h2 h3
  rw [hps] at h
  exact h

/-- Claim C3 witness: a fenced, unparseable scoring response; stripping
changes the text, but the stored summary is the raw text. -/
theorem claim_scoring_parse_fallback_witness :
    env3.summaryGen = .ok "```json oops```" ∧
    env3.parseSummary (cleanSummaryText "```json oops```") = none ∧
    cleanSummaryText "```json oops```" = "oops" ∧
    ((finalRecord env3 (some "123 Main St") none).status = .completed ∧
     (finalRecord env3 (some "123 Main St") none).final_score = none ∧
     (finalRecord env3 (some "123 Main St") none).final_summary =
       some "```json oops```") :=
  ⟨rfl, rfl, rfl,
   claim_scoring_parse_fallback env3 (some "123 Main St") none baseChecklist
     ["img1", "img2"] "```json oops```" rfl rfl rfl rfl⟩

/-- Claim C4: a batch whose analyzer call or response parsing throws
contributes nothing, and the accumulated results are still the
concatenation of every batch's own contribution in order, so a failing
batch never aborts the stage. -/
theorem claim_batch_failure_contained (env : Env) (images : List String)
    (j : Nat)
    (h : analyzeSingleBatch (batchOf images j) (env.batchGen j)
      env.parseAnalysis = .error ()) :
    batchResult env images j = [] ∧
    (analyzeImagesInBatches env images).2 =
      collectBatches (batchResult env images)
        (List.range (numBatches images)) := by
  constructor
  · simp [batchResult, h]
  · simpa [analyzeImagesInBatches] using
      runBatches_snd env images (List.range (numBatches images)) []

/-- Claim C4 witness: the first batch fails (its fallback analysis text
does not parse) while the second succeeds, and only the second batch's
entry is accumulated. -/
theorem claim_batch_failure_contained_witness :
    analyzeSingleBatch (batchOf ["img1", "img2"] 0) (env4.batchGen 0)
      env4.parseAnalysis = .error () ∧
    (batchResult env4 ["img1", "img2"] 0 = [] ∧
     (analyzeImagesInBatches env4 ["img1", "img2"]).2 =
       collectBatches (batchResult env4 ["img1", "img2"])
         (List.range (numBatches ["img1", "img2"]))) ∧
    (analyzeImagesInBatches env4 ["img1", "img2"]).2 =
      [{ image_url := some "img2", trigger_found := none,
         pixel_coordinates := none }] :=
  ⟨rfl, claim_batch_failure_contained env4 ["img1", "img2"] 0 rfl, rfl⟩

/-- Claim C5: with coordinates resolved, the specialty stage returns
exactly the category and findings pairs of the requested checks whose
calls succeeded, in task order, and a run whose other stages succeed still
completes regardless of which checks fail. -/
theorem claim_specialty_settle_all (env : Env) (a u : Option String)
    (c : String) (imgs : List String) (raw : String) (co : Coords)
    (hg : env.geocode = .ok co)
    (h1 : env.checklistGen = .ok c)
    (h2 : scrapePropertyImages a u env = .ok imgs)
    (h3 : env.summaryGen = .ok raw) :
    (∀ flags : SpecialtyFlags,
      (runSpecialtyChecks env flags).2 =
        (requestedChecks flags).filterMap (fun k =>
          match env.checkOutcome k with
          | .ok f => some { category := categoryName k, findings := f }
          | .error _ => none)) ∧
    (finalRecord env a u).status = .completed := by
  constructor
  · intro flags
    have hfun : (fun k => (checkRun env k).toOption) =
        (fun k =>
          match env.checkOutcome k with
          | .ok f => some ({ category := categoryName k, findings := f } :
              SpecialtyResult)
          | .error _ => none) := by
      funext k
      cases hk : env.checkOutcome k <;> simp [checkRun, hk, Except.toOption]
    simp [runSpecialtyChecks, hg, hfun]
  · exact (finalRecord_of_summary_ok env a u c imgs raw h1 h2 h3).1

/-- Claim C5 witness: five checks are requested, three fail, and the
result is exactly the two succeeding categories' findings while the job
completes. -/
theorem claim_specialty_settle_all_witness :
    (requestedChecks (parseSpecialtyFlags c5checklist)).length = 5 ∧
    (runSpecialtyChecks env5 (parseSpecialtyFlags c5checklist)).2 =
      [{ category := "Nearby Services & Transit",
         findings := "Bus stops and a clinic are close" },
       { category := "Sidewalk & Pedestrian Infrastructure",
         findings := "Curb cuts are present" }] ∧
    ((runSpecialtyChecks env5 (parseSpecialtyFlags c5checklist)).2 =
      (requestedChecks (parseSpecialtyFlags c5checklist)).filterMap (fun k =>
        match env5.checkOutcome k with
        | .ok f => some { category := categoryName k, findings := f }
        | .error _ => none) ∧
     (finalRecord env5 (some "123 Main St") none).status = .completed) :=
  ⟨rfl, rfl,
   (claim_specialty_settle_all env5 (some "123 Main St") none c5checklist
       ["img1", "img2"] "RAWSUMMARY" { lat := 0, lng := 0 }
       rfl rfl rfl rfl).1 (parseSpecialtyFlags c5checklist),
   (claim_specialty_settle_all env5 (some "123 Main St") none c5checklist
       ["img1", "img2"] "RAWSUMMARY" { lat := 0, lng := 0 }
       rfl rfl rfl rfl).2⟩

/-- Claim C7: results are accumulated in image submission order: a
successful batch contributes exactly its own entries, entry `i` of such a
batch carries the `i`-th image URL submitted in that batch, and the
accumulated sequence is the in-order concatenation of the per-batch
contributions. -/
theorem claim_image_order (env : Env) (images : List String) (j : Nat)
    (rs : List ImageResult)
    (h : analyzeSingleBatch (batchOf images j) (env.batchGen j)
      env.parseAnalysis = .ok rs) :
    batchResult env images j = rs ∧
    (∀ i (hi : i < rs.length), rs[i].image_url = (batchOf images j)[i]?) ∧
    (analyzeImagesInBatches env images).2 =
      collectBatches (batchResult env images)
        (List.range (numBatches images)) := by
  refine ⟨by simp [batchResult, h], ?_,
    by simpa [analyzeImagesInBatches] using
      runBatches_snd env images (List.range (numBatches images)) []⟩
  cases hp : env.parseAnalysis
      (cleanAnalysisText (imageinGroups (env.batchGen j))) with
  | none => simp [analyzeSingleBatch, hp] at h
  | some raws =>
      simp only [analyzeSingleBatch, hp] at h
      injection h with h
      subst h
      intro i hi
      have hq : (buildEntries (batchOf images j) 0 raws)[i]? =
          some (buildEntries (batchOf images j) 0 raws)[i] :=
        List.getElem?_eq_getElem hi
      rw [buildEntries_getElem?] at hq
      cases hr : raws[i]? with
      | none => rw [hr] at hq; simp at hq
      | some r0 =>
          rw [hr] at hq
          simp at hq
          rw [← hq]

/-- Claim C7 witness: the first batch of two images succeeds; its only
entry carries the first image URL of that batch, and the accumulated list
is the per-batch concatenation. -/
theorem claim_image_order_witness :
    analyzeSingleBatch (batchOf ["img1", "img2"] 0) (baseEnv.batchGen 0)
      baseEnv.parseAnalysis =
      .ok [{ image_url := some "img1", trigger_found := none,
             pixel_coordinates := none }] ∧
    batchResult baseEnv ["img1", "img2"] 0 =
      [{ image_url := some "img1", trigger_found := none,
         pixel_coordinates := none }] ∧
    (([{ image_url := some "img1", trigger_found := none,
         pixel_coordinates := none }] : List ImageResult)[0]).image_url =
      (batchOf ["img1", "img2"] 0)[0]? ∧
    (analyzeImagesInBatches baseEnv ["img1", "img2"]).2 =
      collectBatches (batchResult baseEnv ["img1", "img2"])
        (List.range (numBatches ["img1", "img2"])) :=
  ⟨rfl,
   (claim_image_order baseEnv ["img1", "img2"] 0
       [{ image_url := some "img1", trigger_found := none,
          pixel_coordinates := none }] rfl).1,
   (claim_image_order baseEnv ["img1", "img2"] 0
       [{ image_url := some "img1", trigger_found := none,
          pixel_coordinates := none }] rfl).2.1 0 (by decide),
   (claim_image_order baseEnv ["img1", "img2"] 0
       [{ image_url := some "img1", trigger_found := none,
          pixel_coordinates := none }] rfl).2.2⟩

/-- Claim C6 counterexample: a checklist requesting only the sidewalk
check kind sets a specialty flag, yet the orchestrator (whose gate tests
only elevation, proximity and pollution) never geocodes, never writes
`specialty_results`, and completes with the field absent. -/
theorem claim_specialty_gate_counterexample :
    (parseSpecialtyFlags sidewalkChecklist).sidewalk = true ∧
    List.countP isGeoCall (runJob env6 (some "123 Main St") none) = 0 ∧
    List.countP isSpecialtyWrite (runJob env6 (some "123 Main St") none) = 0 ∧
    (finalRecord env6 (some "123 Main St") none).specialty_results = none ∧
    (finalRecord env6 (some "123 Main St") none).status = .completed :=
  ⟨rfl, rfl, rfl, rfl, rfl⟩

/-- Claim C6 (amended): when the checklist requests at least one of the
elevation, proximity or pollution check kinds, the orchestrator geocodes
exactly once and writes `specialty_results` exactly once; when none of
those three kinds is requested (even if other kinds are), the stage is
skipped and `specialty_results` is absent from the final record. -/
theorem claim_specialty_gate_amended (env : Env) (a u : Option String)
    (c : String) (imgs : List String)
    (h1 : env.checklistGen = .ok c)
    (h2 : scrapePropertyImages a u env = .ok imgs) :
    (((parseSpecialtyFlags c).elevation || (parseSpecialtyFlags c).proximity ||
        (parseSpecialtyFlags c).pollution) = true →
      List.countP isGeoCall (runJob env a u) = 1 ∧
      List.countP isSpecialtyWrite (runJob env a u) = 1) ∧
    (((parseSpecialtyFlags c).elevation || (parseSpecialtyFlags c).proximity ||
        (parseSpecialtyFlags c).pollution) = false →
      List.countP isGeoCall (runJob env a u) = 0 ∧
      List.countP isSpecialtyWrite (runJob env a u) = 0 ∧
      (finalRecord env a u).specialty_results = none) := by
  have htr : runJob env a u =
      Event.write (DbWrite.checklist c) ::
        ((analyzeImagesInBatches env imgs).1 ++ (specialtyStage env c).1 ++
          finalStage env) := by
    unfold runJob; rw [h1, h2]
  have hb_geo : List.countP isGeoCall (analyzeImagesInBatches env imgs).1 = 0 := by
    simpa [analyzeImagesInBatches] using
      runBatches_countP env imgs isGeoCall (fun rs => rfl)
        (List.range (numBatches imgs)) []
  have hb_spec :
      List.countP isSpecialtyWrite (analyzeImagesInBatches env imgs).1 = 0 := by
    simpa [analyzeImagesInBatches] using
      runBatches_countP env imgs isSpecialtyWrite (fun rs => rfl)
        (List.range (numBatches imgs)) []
  have hfin_geo : List.countP isGeoCall (finalStage env) = 0 := by
    cases hg : env.summaryGen <;>
      simp [finalStage, hg, errorEvent, isGeoCall, List.countP_cons]
  have hfin_spec : List.countP isSpecialtyWrite (finalStage env) = 0 := by
    cases hg : env.summaryGen <;>
      simp [finalStage, hg, errorEvent, isSpecialtyWrite, List.countP_cons]
  constructor
  · intro hgate
    have hsp : (specialtyStage env c).1 =
        [Event.geocodeCall,
         Event.write (DbWrite.specialtyResults
           (runSpecialtyChecks env (parseSpecialtyFlags c)).2)] := by
      simp [specialtyStage, hgate, runSpecialtyChecks_fst]
    rw [htr, hsp]
    constructor <;>
      simp [List.countP_cons, List.countP_append, hb_geo, hb_spec,
        hfin_geo, hfin_spec, isGeoCall, isSpecialtyWrite]
  · intro hgate
    have hsp : (specialtyStage env c).1 = [] := by
      simp [specialtyStage, hgate]
    refine ⟨?_, ?_, ?_⟩
    · rw [htr, hsp]
      simp [List.countP_cons, List.countP_append, hb_geo, hfin_geo, isGeoCall]
    · rw [htr, hsp]
      simp [List.countP_cons, List.countP_append, hb_spec, hfin_spec,
        isSpecialtyWrite]
    · unfold finalRecord
      rw [htr, hsp]
      simp only [List.append_nil, List.foldl_cons, List.foldl_append]
      have hpre := (runBatches_foldl env imgs (List.range (numBatches imgs)) []
        (applyEvent initRecord (Event.write (DbWrite.checklist c)))).2.1
      simp only [applyEvent, applyWrite, initRecord] at hpre
      cases hg : env.summaryGen with
      | error e =>
          simp [finalStage, hg, errorEvent, applyEvent, applyWrite,
            analyzeImagesInBatches, hpre, initRecord]
      | ok raw =>
          simp [finalStage, hg, applyEvent, applyWrite,
            analyzeImagesInBatches, hpre, initRecord]

/-- Claim C6 (amended) witness: the base checklist requests elevation and
proximity, so the run geocodes once and writes `specialty_results`
once. -/
theorem claim_specialty_gate_amended_witness :
    ((parseSpecialtyFlags baseChecklist).elevation ||
      (parseSpecialtyFlags baseChecklist).proximity ||
      (parseSpecialtyFlags baseChecklist).pollution) = true ∧
    (List.countP isGeoCall (runJob baseEnv (some "123 Main St") none) = 1 ∧
     List.countP isSpecialtyWrite (runJob baseEnv (some "123 Main St") none) = 1) :=
  ⟨rfl,
   (claim_specialty_gate_amended baseEnv (some "123 Main St") none
       baseChecklist ["img1", "img2"] rfl rfl).1 rfl⟩

/-- Claim C8 counterexample: the non-sentinel trigger value consisting of
a bare comma yields `trigger_found = some []`: an empty list, not null and
not the non-empty split-and-trim list (which would be two empty names). -/
theorem claim_trigger_split_counterexample :
    analyzeSingleBatch ["u1"] (Except.ok "TRIGBAD") parse8bad =
      .ok [{ image_url := some "u1", trigger_found := some [],
             pixel_coordinates := none }] ∧
    ("," ≠ "None") ∧
    (splitCommas ",").map strTrim = ["", ""] ∧
    (([] : List String) ≠ ["", ""]) :=
  ⟨rfl, by decide, rfl, by decide⟩

/-- Claim C8 (amended): in a successfully parsed batch there is one entry
per parsed analyzer result; the sentinel trigger value `None` maps to a
null `trigger_found`, and any other value maps to the list obtained by
splitting on commas, trimming each name and dropping empty names, which
may be empty. -/
theorem claim_trigger_split_amended (urls : List String)
    (gen : Except Unit String) (parse : String → Option (List RawEntry))
    (rs : List ImageResult) (raws : List RawEntry)
    (h : analyzeSingleBatch urls gen parse = .ok rs)
    (hp : parse (cleanAnalysisText (imageinGroups gen)) = some raws) :
    rs.length = raws.length ∧
    ∀ i (hi : i < rs.length) (hi2 : i < raws.length),
      rs[i].trigger_found =
        if raws[i].trigger = "None" then none
        else some (((splitCommas raws[i].trigger).map strTrim).filter
          (fun t => 0 < t.length)) := by
  simp only [analyzeSingleBatch, hp] at h
  injection h with h
  subst h
  constructor
  · exact buildEntries_length urls raws 0
  · intro i hi hi2
    have hq : (buildEntries urls 0 raws)[i]? =
        some (buildEntries urls 0 raws)[i] := List.getElem?_eq_getElem hi
    rw [buildEntries_getElem?] at hq
    have hr : raws[i]? = some raws[i] := List.getElem?_eq_getElem hi2
    rw [hr] at hq
    simp at hq
    rw [← hq]
    simp [mkTriggerFound]

/-- Claim C8 (amended) witness: a parsed batch with a sentinel entry and
an entry with two padded names; the latter maps to the trimmed two-name
list. -/
theorem claim_trigger_split_amended_witness :
    analyzeSingleBatch ["u1", "u2"] (Except.ok "TRIG") parse8ok = .ok rs8 ∧
    parse8ok (cleanAnalysisText (imageinGroups (Except.ok "TRIG"))) =
      some raws8 ∧
    rs8.length = raws8.length ∧
    (rs8.get ⟨1, by decide⟩).trigger_found =
      (if (raws8.get ⟨1, by decide⟩).trigger = "None" then none
       else some (((splitCommas (raws8.get ⟨1, by decide⟩).trigger).map
         strTrim).filter (fun t => 0 < t.length))) ∧
    (rs8.get ⟨1, by decide⟩).trigger_found =
      some ["ramp steep", "narrow door"] :=
  ⟨rfl, rfl,
   (claim_trigger_split_amended ["u1", "u2"] (Except.ok "TRIG") parse8ok
       rs8 raws8 rfl rfl).1,
   (claim_trigger_split_amended ["u1", "u2"] (Except.ok "TRIG") parse8ok
       rs8 raws8 rfl rfl).2 1 (by decide) (by decide),
   rfl⟩

/-- Claim C9 counterexample: a parsed scoring response with score 250 is
persisted verbatim on a completed job, so a non-null `final_score` outside
the 0 to 100 range can be written. -/
theorem claim_score_range_counterexample :
    (finalRecord env9 (some "123 Main St") none).status = .completed ∧
    (finalRecord env9 (some "123 Main St") none).final_score = some 250 ∧
    ¬((250 : Int) ≤ 100) :=
  ⟨rfl, rfl, by decide⟩

/-- Claim C9 (amended): the persisted `final_score` is either null or
exactly the score field of the parsed scoring response; the code performs
no range validation, so the value lies in 0 to 100 only when the parsed
response's score does. -/
theorem claim_score_range_amended (env : Env) (a u : Option String) :
    (finalRecord env a u).final_score = none ∨
    ∃ raw, env.summaryGen = .ok raw ∧
      (finalRecord env a u).final_score =
        (parseSummaryResponse raw env.parseSummary).score := by
  unfold finalRecord runJob
  cases hc : env.checklistGen with
  | error e => left; rfl
  | ok c =>
      cases hs : scrapePropertyImages a u env with
      | error e => left; rfl
      | ok imgs =>
          cases hg : env.summaryGen with
          | error e =>
              left
              simp only [List.foldl_cons, ← List.append_assoc,
                List.foldl_append, finalStage, hg]
              have hpre := (runBatches_foldl env imgs
                (List.range (numBatches imgs)) []
                (applyEvent initRecord (Event.write (DbWrite.checklist c)))).2.2.1
              simp only [applyEvent, applyWrite, initRecord] at hpre
              rcases specialtyStage_fst env c with hsp | hsp <;>
                rw [hsp] <;>
                simp [applyEvent, applyWrite, errorEvent,
                  analyzeImagesInBatches, hpre, initRecord]
          | ok raw =>
              right
              refine ⟨raw, rfl, ?_⟩
              simp only [List.foldl_cons, ← List.append_assoc,
                List.foldl_append, finalStage, hg]
              simp [applyEvent, applyWrite]

/-- Claim C10: when geocoding fails, the specialty runner swallows the
failure and returns no findings without consulting any check, and a run
whose other stages succeed still completes instead of erroring. -/
theorem claim_geocode_failure_soft (env : Env) (a u : Option String)
    (c : String) (imgs : List String) (raw : String) (flags : SpecialtyFlags)
    (hg : env.geocode = .error ())
    (h1 : env.checklistGen = .ok c)
    (h2 : scrapePropertyImages a u env = .ok imgs)
    (h3 : env.summaryGen = .ok raw) :
    (runSpecialtyChecks env flags).2 = [] ∧
    (∀ g : CheckKind → Except Unit String,
      (runSpecialtyChecks { env with checkOutcome := g } flags).2 = []) ∧
    (finalRecord env a u).status = .completed := by
  refine ⟨by simp [runSpecialtyChecks, hg], ?_,
    (finalRecord_of_summary_ok env a u c imgs raw h1 h2 h3).1⟩
  intro g
  simp [runSpecialtyChecks, hg]

/-- Claim C10 witness: geocoding fails in an otherwise successful run; the
specialty results are empty (for any check outcomes) and the job
completes, persisting an empty `specialty_results`. -/
theorem claim_geocode_failure_soft_witness :
    env10.geocode = .error () ∧
    (runSpecialtyChecks env10 (parseSpecialtyFlags baseChecklist)).2 = [] ∧
    (runSpecialtyChecks { env10 with checkOutcome := fun _ => .ok "zzz" }
      (parseSpecialtyFlags baseChecklist)).2 = [] ∧
    (finalRecord env10 (some "123 Main St") none).status = .completed ∧
    (finalRecord env10 (some "123 Main St") none).specialty_results =
      some [] :=
  ⟨rfl,
   (claim_geocode_failure_soft env10 (some "123 Main St") none baseChecklist
       ["img1", "img2"] "RAWSUMMARY" (parseSpecialtyFlags baseChecklist)
       rfl rfl rfl rfl).1,
   (claim_geocode_failure_soft env10 (some "123 Main St") none baseChecklist
       ["img1", "img2"] "RAWSUMMARY" (parseSpecialtyFlags baseChecklist)
       rfl rfl rfl rfl).2.1 (fun _ => .ok "zzz"),
   (claim_geocode_failure_soft env10 (some "123 Main St") none baseChecklist
       ["img1", "img2"] "RAWSUMMARY" (parseSpecialtyFlags baseChecklist)
       rfl rfl rfl rfl).2.2,
   rfl⟩

end Muve
